import Mathlib

/-!
Verification development for the skill scaffolding / validation / packaging
repository.  The scaffolding script (`init_skill.py`) is embedded from its
source; the validator and packager, whose source is not part of the
repository snapshot, are modelled from the specification document.

Filesystem states are modelled explicitly: a path is a list of name
segments (relative to an implicit root directory), and a filesystem is a
finite collection of directory paths plus a finite association of file
paths to string contents.
-/

set_option maxRecDepth 10000

/-- A filesystem path: a list of name segments relative to the root. -/
abbrev FsPath := List String

/-- A filesystem state: the set of existing directories (as a list of
paths) and the existing files with their textual contents.  The root
directory `[]` is implicit and always exists. -/
structure FS where
  dirs : List FsPath
  files : List (FsPath × String)
deriving DecidableEq

/-- `pathExists fs p` — whether `p` exists, as a directory or as a file
(the semantics of Python's `Path.exists()`). -/
def pathExists (fs : FS) (p : FsPath) : Bool :=
  fs.dirs.contains p || fs.files.any (fun e => e.1 = p)

/-- Content of the file at `p`, if a file exists there. -/
def lookupFile (fs : FS) (p : FsPath) : Option String :=
  (fs.files.find? (fun e => e.1 = p)).map (fun e => e.2)

/-- `p` is a directory (the root always is). -/
def isDirOf (fs : FS) (p : FsPath) : Bool :=
  p = [] || fs.dirs.contains p

/-- The strict ancestors of a path (all proper prefixes, including the
root `[]`). -/
def strictPrefixes (p : FsPath) : List FsPath :=
  p.inits.dropLast

/-- Well-formedness of a filesystem state: no path is both a file and a
directory, no stored path is the root, and every strict ancestor of a
stored path is a directory. -/
def wfFS (fs : FS) : Bool :=
  fs.dirs.all (fun p =>
    !(p = []) && (strictPrefixes p).all (fun q => q = [] || fs.dirs.contains q)) &&
  fs.files.all (fun e =>
    !(e.1 = []) && (strictPrefixes e.1).all (fun q => q = [] || fs.dirs.contains q) &&
    !(fs.dirs.contains e.1))

/-- Precondition of Python's `Path.mkdir(parents=True)` (with the default
`exist_ok=False`): the target must not already exist, and no strict
ancestor may be a file.  Missing ancestors are created. -/
def canMkdirParents (fs : FS) (p : FsPath) : Bool :=
  !(pathExists fs p) && (strictPrefixes p).all (fun q => (lookupFile fs q).isNone)

/-- Effect of `Path.mkdir(parents=True)`: add the target and every missing
ancestor to the directory set. -/
def doMkdirParents (fs : FS) (p : FsPath) : FS :=
  { fs with dirs := fs.dirs ++ p.inits.filter (fun q => !(q = []) && !(fs.dirs.contains q)) }

/-- Precondition of `Path.write_text`: the parent must be an existing
directory and the target must not be a directory. -/
def canWriteText (fs : FS) (p : FsPath) : Bool :=
  !(p = []) && isDirOf fs p.dropLast && !(fs.dirs.contains p)

/-- Effect of `Path.write_text`: create or truncate-and-rewrite the file. -/
def doWriteText (fs : FS) (p : FsPath) (content : String) : FS :=
  { fs with files := fs.files.filter (fun e => !(e.1 = p)) ++ [(p, content)] }

/-- Precondition of `Path.touch()`: succeeds when the path exists already
(only times change) or its parent is an existing directory. -/
def canTouch (fs : FS) (p : FsPath) : Bool :=
  pathExists fs p || (!(p = []) && isDirOf fs p.dropLast)

/-- Effect of `Path.touch()`: create an empty file when the path is
missing; otherwise leave contents untouched. -/
def doTouch (fs : FS) (p : FsPath) : FS :=
  if pathExists fs p then fs else { fs with files := fs.files ++ [(p, "")] }

/-! ## Embedding of `init_skill.py` -/

/-- A character allowed in skill names by the character class
`[a-zA-Z0-9_-]` of `init_skill.py`. -/
def isAllowedChar (c : Char) : Bool :=
  c.isAlpha || c.isDigit || c = '-' || c = '_'

/-- Embedding of `validate_skill_name`, which runs
`re.match(r'^[a-zA-Z0-9_-]+$', name)`.  In Python's `re`, `$` matches at
the end of the string and also just before a newline that ends the string,
so the accepted language is: one or more allowed characters, optionally
followed by a single trailing newline. -/
def validate_skill_name (name : String) : Bool :=
  let cs := name.data
  let stem := if cs.getLast? = some '\n' then cs.dropLast else cs
  !(stem.isEmpty) && stem.all isAllowedChar

/-- Follows the spec's words: a skill name matching the regular expression
anchored on both sides, `^[A-Za-z0-9_-]+$` — that is, a non-empty string
every character of which is an ASCII letter, digit, hyphen or underscore. -/
def specSkillNameOk (name : String) : Bool :=
  !(name = "") && name.data.all isAllowedChar

/-- Python `str.replace(old, new)` for single-character patterns is a
character-wise map. -/
def replaceChar (s : String) (old new : Char) : String :=
  s.map (fun c => if c = old then new else c)

/-- Python `str.title()` restricted to ASCII text: the first cased
character of every run of letters is uppercased, the rest lowercased;
non-letter characters pass through and reset the run. -/
def pyTitleAux : List Char → Bool → List Char
  | [], _ => []
  | c :: rest, prevCased =>
    if c.isAlpha then
      (if prevCased then c.toLower else c.toUpper) :: pyTitleAux rest true
    else
      c :: pyTitleAux rest false

/-- Python `str.title()` on ASCII input. -/
def pyTitle (s : String) : String :=
  ⟨pyTitleAux s.data false⟩

/-- The `skill_title` computed in `create_skill_directory`:
`skill_name.replace("-", " ").replace("_", " ").title()`. -/
def skillTitle (skill_name : String) : String :=
  pyTitle (replaceChar (replaceChar skill_name '-' ' ') '_' ' ')

/-- `SKILL_MD_TEMPLATE` with `{skill_name}` and `{skill_title}`
substituted, exactly as `SKILL_MD_TEMPLATE.format(...)` produces it. -/
def skillMdContent (skill_name : String) : String :=
  "---\nname: " ++ skill_name ++
  "\ndescription: [Describe what this skill does and when to use it - minimum 50 characters]\n---\n\n# "
  ++ skillTitle skill_name ++
  "\n\n## Overview\n\n[Describe the skill's purpose and capabilities]\n\n## Usage\n\n[Explain how to use this skill with examples]\n\n## Resources\n\n- `scripts/` - Executable scripts for deterministic tasks\n- `references/` - Documentation loaded as needed\n- `assets/` - Templates and files used in output\n"

/-- `EXAMPLE_SCRIPT` with `{skill_name}` substituted. -/
def exampleScriptContent (skill_name : String) : String :=
  "#!/usr/bin/env python3\n\"\"\"Example script for " ++ skill_name ++
  ".\"\"\"\n\ndef main():\n    \"\"\"Main entry point.\"\"\"\n    print(\"Hello from " ++ skill_name ++
  "!\")\n\nif __name__ == \"__main__\":\n    main()\n"

/-- `EXAMPLE_REFERENCE` with `{skill_name}` substituted. -/
def exampleReferenceContent (skill_name : String) : String :=
  "# Reference Document\n\nThis is an example reference document for " ++ skill_name ++
  ".\n\n## Contents\n\nAdd domain knowledge, guidelines, or documentation here that Codex\ncan load as needed during skill execution.\n"

/-- Embedding of `create_skill_directory(skill_name, output_path)`.
Returns the process exit code (0 on success, 1 on `sys.exit(1)` or an
uncaught filesystem exception) together with the filesystem state at
process end.  Each filesystem call is guarded by the precondition under
which the Python call would not raise; a raising call terminates the
process with the filesystem as it stood. -/
def create_skill_directory (skill_name : String) (output_path : FsPath) (fs : FS) :
    Nat × FS :=
  let skill_dir := output_path ++ [skill_name]
  if pathExists fs skill_dir then (1, fs)
  else if !(canMkdirParents fs (skill_dir ++ ["scripts"])) then (1, fs)
  else
    let fs1 := doMkdirParents fs (skill_dir ++ ["scripts"])
    if !(canMkdirParents fs1 (skill_dir ++ ["references"])) then (1, fs1)
    else
      let fs2 := doMkdirParents fs1 (skill_dir ++ ["references"])
      if !(canMkdirParents fs2 (skill_dir ++ ["assets"])) then (1, fs2)
      else
        let fs3 := doMkdirParents fs2 (skill_dir ++ ["assets"])
        if !(canWriteText fs3 (skill_dir ++ ["SKILL.md"])) then (1, fs3)
        else
          let fs4 := doWriteText fs3 (skill_dir ++ ["SKILL.md"]) (skillMdContent skill_name)
          if !(canWriteText fs4 (skill_dir ++ ["scripts", "example.py"])) then (1, fs4)
          else
            let fs5 := doWriteText fs4 (skill_dir ++ ["scripts", "example.py"])
              (exampleScriptContent skill_name)
            if !(canWriteText fs5 (skill_dir ++ ["references", "example.md"])) then (1, fs5)
            else
              let fs6 := doWriteText fs5 (skill_dir ++ ["references", "example.md"])
                (exampleReferenceContent skill_name)
              if !(canTouch fs6 (skill_dir ++ ["assets", ".gitkeep"])) then (1, fs6)
              else (0, doTouch fs6 (skill_dir ++ ["assets", ".gitkeep"]))

/-! ## Claim C1 -/

/-- C1: the claim states that `validate_skill_name` accepts exactly the
non-empty strings over `[A-Za-z0-9_-]`.  The code is a slip: Python's `$`
also matches just before a string-final newline, so the string `"a\n"`,
which contains the disallowed character `'\n'`, is accepted — the code
contradicts its own docstring ("contains only allowed characters"), its
error message, and the spec's anchored regular expression.  This theorem
evaluates the code at the failing input. -/
theorem C1_validate_skill_name_code_bug :
    validate_skill_name "a\n" = true ∧
    specSkillNameOk "a\n" = false ∧
    '\n' ∈ "a\n".data ∧ isAllowedChar '\n' = false := by
  refine ⟨by decide, by decide, ?_, by decide⟩
  simp [String.data]

/-! ## Claim C2 -/

/-- C2: when the target directory `<outputPath>/<skillName>` already
exists, `create_skill_directory` exits with the non-zero code 1 and the
filesystem is completely unchanged — no file or directory is created or
modified. -/
theorem C2_existing_target_fails_unchanged
    (skill_name : String) (output_path : FsPath) (fs : FS)
    (h : (output_path ++ [skill_name]) ∈ fs.dirs) :
    create_skill_directory skill_name output_path fs = (1, fs) := by
  have hex : pathExists fs (output_path ++ [skill_name]) = true := by
    simp [pathExists]
    exact Or.inl (by simpa using h)
  simp [create_skill_directory, hex]

/-- Witness for C2 at a concrete filesystem in which the target directory
`out/demo` exists. -/
theorem C2_witness :
    (["out", "demo"] : FsPath) ∈ (FS.mk [["out"], ["out", "demo"]] []).dirs ∧
    create_skill_directory "demo" ["out"] (FS.mk [["out"], ["out", "demo"]] []) =
      (1, FS.mk [["out"], ["out", "demo"]] []) := by
  refine ⟨by decide, C2_existing_target_fails_unchanged "demo" ["out"] _ (by decide)⟩

/-! ## Manifest validator

Modelled from the spec: the validator's source is not part of the
repository snapshot (only the scaffolding script is), so the definitions
below follow §4.1 of the specification word by word. -/

/-- A character Python's `str.strip()` removes. -/
def isPySpace (c : Char) : Bool :=
  c = ' ' || c = '\t' || c = '\n' || c = '\r' || c = '\x0b' || c = '\x0c'

/-- Trim leading and trailing whitespace (Python `str.strip()`). -/
def pyStrip (l : List Char) : List Char :=
  ((l.dropWhile isPySpace).reverse.dropWhile isPySpace).reverse

/-- The frontmatter fence marker, as characters. -/
def fenceChars : List Char := ['-', '-', '-']

/-- Modelled from the spec: scan the text after the opening fence line for
a line containing only the fence marker; return the frontmatter lines
before it and the raw text after it.  `cur` is the current line read so
far (reversed), `acc` the completed frontmatter lines (reversed). -/
def fmScan : List Char → List Char → List (List Char) →
    Option (List (List Char) × List Char)
  | [], cur, acc =>
    if cur.reverse = fenceChars then some (acc.reverse, []) else none
  | c :: rest, cur, acc =>
    if c = '\n' then
      if cur.reverse = fenceChars then some (acc.reverse, rest)
      else fmScan rest [] (cur.reverse :: acc)
    else fmScan rest (c :: cur) acc

/-- Modelled from the spec: the manifest content must begin with a fence
line at the very start of the file; on success, produce the frontmatter
lines and the body (all text following the closing fenceline). -/
def parseFrontmatter (content : String) : Option (List (List Char) × List Char) :=
  match content.data with
  | '-' :: '-' :: '-' :: '\n' :: rest => fmScan rest [] []
  | _ => none

/-- The key of the `name` field. -/
def nameKeyChars : List Char := "name:".data

/-- The key of the `description` field. -/
def descKeyChars : List Char := "description:".data

/-- Modelled from the spec: the value of the first frontmatter line
starting with the given key, if any. -/
def fieldValue (key : List Char) (fm : List (List Char)) : Option (List Char) :=
  (fm.find? (fun l => key.isPrefixOf l)).map (fun l => l.drop key.length)

/-- One failed validation rule (§4.1 / §7 of the spec). -/
inductive Violation where
  | missingManifest
  | missingFrontmatter
  | missingName
  | missingDescription
  | descriptionTooShort (actual required : Nat)
  | descriptionPlaceholder
  | bodyTooShort (actual required : Nat)
  | forbiddenFile (filename : String)
deriving DecidableEq

/-- Minimum trimmed description length (spec §4.1 rule 4). -/
def DESCRIPTION_MIN_LENGTH : Nat := 50

/-- Minimum trimmed body length (spec §4.1 rule 5). -/
def BODY_MIN_LENGTH : Nat := 100

/-- The denylist of spec §4.1 rule 6. -/
def FORBIDDEN_FILES : List String := ["README.md", "CHANGELOG.md", "INSTALLATION_GUIDE.md"]

/-- Modelled from the spec, rule 3: the frontmatter must contain a line
`name:` followed by at least one non-whitespace character. -/
def nameCheck (fm : List (List Char)) : List Violation :=
  if fm.any (fun l =>
      nameKeyChars.isPrefixOf l && !(pyStrip (l.drop nameKeyChars.length)).isEmpty) then
    []
  else [.missingName]

/-- Modelled from the spec, rule 4: description presence, minimum trimmed
length, and the bracket-placeholder check (the last two independent, both
may fire; both skipped when the field is absent). -/
def descriptionChecks (fm : List (List Char)) : List Violation :=
  match fieldValue descKeyChars fm with
  | none => [.missingDescription]
  | some v =>
    let d := pyStrip v
    (if d.length < DESCRIPTION_MIN_LENGTH then
      [.descriptionTooShort d.length DESCRIPTION_MIN_LENGTH] else []) ++
    (if d.contains '[' && d.contains ']' then [.descriptionPlaceholder] else [])

/-- Modelled from the spec, rule 5: the trimmed body must reach the
minimum length. -/
def bodyCheck (body : List Char) : List Violation :=
  if (pyStrip body).length < BODY_MIN_LENGTH then
    [.bodyTooShort (pyStrip body).length BODY_MIN_LENGTH]
  else []

/-- A skill directory as the validator sees it: its name, the manifest
file's content when present at the expected path, and the names of the
files directly contained in the directory. -/
structure SkillDir where
  name : String
  manifest : Option String
  topLevelFiles : List String
deriving DecidableEq

/-- Modelled from the spec, rule 6: each denylisted file directly present
produces its own violation. -/
def forbiddenCheck (d : SkillDir) : List Violation :=
  FORBIDDEN_FILES.filterMap (fun f =>
    if d.topLevelFiles.contains f then some (.forbiddenFile f) else none)

/-- The validator's result (spec §3): validity flag plus the ordered
violations. -/
structure ValidationResult where
  isValid : Bool
  violations : List Violation
deriving DecidableEq

/-- Modelled from the spec, §4.1: `validate(skillDirectory)`.  Manifest
presence and frontmatter presence short-circuit; the content rules run in
order and accumulate; `isValid` iff no violation. -/
def validate (d : SkillDir) : ValidationResult :=
  match d.manifest with
  | none => ⟨false, [.missingManifest]⟩
  | some content =>
    match parseFrontmatter content with
    | none => ⟨false, [.missingFrontmatter]⟩
    | some (fm, body) =>
      let vs := nameCheck fm ++ descriptionChecks fm ++ bodyCheck body ++ forbiddenCheck d
      ⟨vs.isEmpty, vs⟩

/-! ## Helper lemmas about the individual rule checks -/

theorem mem_nameCheck {fm : List (List Char)} {v : Violation}
    (h : v ∈ nameCheck fm) : v = .missingName := by
  unfold nameCheck at h
  split at h <;> simp_all

theorem mem_descriptionChecks {fm : List (List Char)} {v : Violation}
    (h : v ∈ descriptionChecks fm) :
    v = .missingDescription ∨ (∃ a r, v = .descriptionTooShort a r) ∨
      v = .descriptionPlaceholder := by
  unfold descriptionChecks at h
  split at h
  · simp_all
  · simp only [List.mem_append] at h
    rcases h with h | h <;> split at h <;> simp_all

theorem mem_forbiddenCheck {d : SkillDir} {v : Violation}
    (h : v ∈ forbiddenCheck d) : ∃ f, v = .forbiddenFile f := by
  unfold forbiddenCheck at h
  simp only [List.mem_filterMap] at h
  obtain ⟨f, _, hf⟩ := h
  split at hf
  · exact ⟨f, by simp_all⟩
  · simp_all

theorem bodyTooShort_mem_bodyCheck {body : List Char} :
    (∃ a r, Violation.bodyTooShort a r ∈ bodyCheck body) ↔
      (pyStrip body).length < BODY_MIN_LENGTH := by
  unfold bodyCheck
  split
  · simp_all
  · simp_all

/-! ## Claim C5 -/

/-- C5: when the manifest file is absent, `validate` returns an invalid
result whose violation list is exactly the single manifest-presence
violation — no later rule contributes, whatever the rest of the directory
looks like. -/
theorem C5_missing_manifest_single_violation (d : SkillDir)
    (h : d.manifest = none) :
    validate d = ⟨false, [Violation.missingManifest]⟩ := by
  simp [validate, h]

/-- Witness for C5: a directory with no manifest but with a denylisted
file present still yields exactly the one manifest violation. -/
theorem C5_witness :
    (SkillDir.mk "demo" none ["README.md"]).manifest = none ∧
    validate (SkillDir.mk "demo" none ["README.md"]) =
      ⟨false, [Violation.missingManifest]⟩ :=
  ⟨rfl, C5_missing_manifest_single_violation _ rfl⟩

/-! ## Claim C6 -/

/-- C6: whenever the description field is present and its trimmed value
contains both a literal `[` and a literal `]`, the placeholder violation
is produced regardless of the value's length; and when the trimmed value
is additionally shorter than the minimum, the separate length violation is
also produced — both fire together. -/
theorem C6_placeholder_and_length (d : SkillDir) (content : String)
    (fm : List (List Char)) (body v : List Char)
    (hm : d.manifest = some content)
    (hp : parseFrontmatter content = some (fm, body))
    (hv : fieldValue descKeyChars fm = some v)
    (hl : (pyStrip v).contains '[' = true)
    (hr : (pyStrip v).contains ']' = true) :
    Violation.descriptionPlaceholder ∈ (validate d).violations ∧
    ((pyStrip v).length < DESCRIPTION_MIN_LENGTH →
      Violation.descriptionTooShort (pyStrip v).length DESCRIPTION_MIN_LENGTH ∈
        (validate d).violations) := by
  have hviol : (validate d).violations =
      nameCheck fm ++ descriptionChecks fm ++ bodyCheck body ++ forbiddenCheck d := by
    simp [validate, hm, hp]
  have hdesc : descriptionChecks fm =
      (if (pyStrip v).length < DESCRIPTION_MIN_LENGTH then
        [.descriptionTooShort (pyStrip v).length DESCRIPTION_MIN_LENGTH] else []) ++
      [Violation.descriptionPlaceholder] := by
    unfold descriptionChecks
    rw [hv]
    simp only [hl, hr]
    simp
  constructor
  · rw [hviol, hdesc]
    simp
  · intro hshort
    rw [hviol, hdesc]
    simp [hshort]

/-- Witness for C6: a manifest whose description is the short placeholder
`[x]` receives both the placeholder violation and the length violation. -/
theorem C6_witness :
    (parseFrontmatter "---\nname: x\ndescription: [x]\n---\nbody" =
      some (["name: x".data, "description: [x]".data], "body".data)) ∧
    Violation.descriptionPlaceholder ∈
      (validate (SkillDir.mk "s" (some "---\nname: x\ndescription: [x]\n---\nbody") [])).violations ∧
    Violation.descriptionTooShort (pyStrip " [x]".data).length DESCRIPTION_MIN_LENGTH ∈
      (validate (SkillDir.mk "s" (some "---\nname: x\ndescription: [x]\n---\nbody") [])).violations := by
  have h := C6_placeholder_and_length
    (SkillDir.mk "s" (some "---\nname: x\ndescription: [x]\n---\nbody") [])
    "---\nname: x\ndescription: [x]\n---\nbody"
    ["name: x".data, "description: [x]".data] "body".data " [x]".data
    rfl (by decide) (by decide) (by decide) (by decide)
  exact ⟨by decide, h.1, h.2 (by decide)⟩

/-! ## Claim C7 -/

/-- C7: for a manifest that parses (fence structure valid), a body-length
violation is produced exactly when the trimmed body is strictly shorter
than the 100-character minimum; in particular trimmed length 100 yields no
violation and trimmed length 99 yields one. -/
theorem C7_body_length_rule (d : SkillDir) (content : String)
    (fm : List (List Char)) (body : List Char)
    (hm : d.manifest = some content)
    (hp : parseFrontmatter content = some (fm, body)) :
    (∃ a r, Violation.bodyTooShort a r ∈ (validate d).violations) ↔
      (pyStrip body).length < BODY_MIN_LENGTH := by
  have hviol : (validate d).violations =
      nameCheck fm ++ descriptionChecks fm ++ bodyCheck body ++ forbiddenCheck d := by
    simp [validate, hm, hp]
  rw [hviol]
  constructor
  · rintro ⟨a, r, hmem⟩
    simp only [List.mem_append] at hmem
    rcases hmem with ((h | h) | h) | h
    · exact absurd (mem_nameCheck h) (by simp)
    · rcases mem_descriptionChecks h with h | ⟨a', r', h⟩ | h <;> simp_all
    · exact bodyTooShort_mem_bodyCheck.mp ⟨a, r, h⟩
    · obtain ⟨f, hf⟩ := mem_forbiddenCheck h
      simp_all
  · intro hshort
    obtain ⟨a, r, hmem⟩ := bodyTooShort_mem_bodyCheck.mpr hshort
    exact ⟨a, r, by simp only [List.mem_append]; exact Or.inl (Or.inr hmem)⟩

/-- Witness for C7: a structurally valid manifest whose trimmed body has
length 99 receives a body-length violation. -/
theorem C7_witness :
    (parseFrontmatter ("---\nname: x\ndescription: y\n---\n" ++ String.mk (List.replicate 99 'b')) =
      some (["name: x".data, "description: y".data], List.replicate 99 'b')) ∧
    (pyStrip (List.replicate 99 'b')).length < BODY_MIN_LENGTH ∧
    (∃ a r, Violation.bodyTooShort a r ∈
      (validate (SkillDir.mk "s"
        (some ("---\nname: x\ndescription: y\n---\n" ++ String.mk (List.replicate 99 'b'))) [])).violations) := by
  refine ⟨by decide, by decide, ?_⟩
  exact (C7_body_length_rule _ _ ["name: x".data, "description: y".data]
    (List.replicate 99 'b') rfl (by decide)).mpr (by decide)

/-! ## Parsing the freshly scaffolded manifest -/

/-- The description line emitted by the template, as characters. -/
def descPlaceholderLine : List Char :=
  "description: [Describe what this skill does and when to use it - minimum 50 characters]".data

/-- The description field's value in a fresh manifest (everything after
the `description:` key). -/
def descPlaceholderValue : List Char :=
  " [Describe what this skill does and when to use it - minimum 50 characters]".data

/-- The body of a fresh manifest: all text after the closing fence line. -/
def skillMdBody (n : String) : List Char :=
  ("\n# " ++ skillTitle n ++
    "\n\n## Overview\n\n[Describe the skill's purpose and capabilities]\n\n## Usage\n\n[Explain how to use this skill with examples]\n\n## Resources\n\n- `scripts/` - Executable scripts for deterministic tasks\n- `references/` - Documentation loaded as needed\n- `assets/` - Templates and files used in output\n").data

/-- A freshly scaffolded skill directory as the validator sees it:
`SKILL.md` with the template content, and no other top-level file. -/
def scaffoldedSkillDir (n : String) : SkillDir :=
  ⟨n, some (skillMdContent n), ["SKILL.md"]⟩

theorem allowed_no_newline {n : String} (h : specSkillNameOk n = true) :
    '\n' ∉ n.data := by
  unfold specSkillNameOk at h
  simp only [Bool.and_eq_true, List.all_eq_true] at h
  intro hm
  have := h.2 _ hm
  simp [isAllowedChar] at this

theorem fmScan_consume (l rest cur : List Char) (acc : List (List Char))
    (h : '\n' ∉ l) :
    fmScan (l ++ '\n' :: rest) cur acc =
      if cur.reverse ++ l = fenceChars then some (acc.reverse, rest)
      else fmScan rest [] ((cur.reverse ++ l) :: acc) := by
  induction l generalizing cur with
  | nil => simp [fmScan]
  | cons c cs ih =>
    have hc : ¬(c = '\n') := fun hh => h (by simp [hh])
    have hcs : '\n' ∉ cs := fun hm => h (List.mem_cons_of_mem _ hm)
    simp only [List.cons_append, fmScan, if_neg hc, List.append_eq]
    rw [ih (c :: cur) hcs]
    simp [List.append_assoc]

theorem parseFrontmatter_eq_fmScan (s : String) (rest : List Char)
    (h : s.data = '-' :: '-' :: '-' :: '\n' :: rest) :
    parseFrontmatter s = fmScan rest [] [] := by
  unfold parseFrontmatter
  rw [h]
  rfl

theorem skillMd_data (n : String) :
    (skillMdContent n).data =
      '-' :: '-' :: '-' :: '\n' ::
        (("name: ".data ++ n.data) ++ '\n' ::
          (descPlaceholderLine ++ '\n' :: (fenceChars ++ '\n' :: skillMdBody n))) := by
  simp only [skillMdContent, skillMdBody, descPlaceholderLine, fenceChars,
    String.data_append, List.append_assoc, List.cons_append]
  rfl

theorem parse_skillMd (n : String) (hn : specSkillNameOk n = true) :
    parseFrontmatter (skillMdContent n) =
      some ([("name: " ++ n).data, descPlaceholderLine], skillMdBody n) := by
  have hnl : '\n' ∉ n.data := allowed_no_newline hn
  have h1 : '\n' ∉ ("name: ".data ++ n.data) := by
    intro hm
    rcases List.mem_append.mp hm with hm | hm
    · exact absurd hm (by decide)
    · exact hnl hm
  have hne1 : ¬("name: ".data ++ n.data = fenceChars) := by
    intro hcontra
    rw [show "name: ".data ++ n.data = 'n' :: ("ame: ".data ++ n.data) from rfl] at hcontra
    unfold fenceChars at hcontra
    injection hcontra with hhead _
    exact absurd hhead (by decide)
  rw [parseFrontmatter_eq_fmScan _ _ (skillMd_data n)]
  rw [fmScan_consume _ _ _ _ h1]
  simp only [List.reverse_nil, List.nil_append]
  rw [if_neg hne1]
  rw [fmScan_consume _ _ _ _ (by decide)]
  simp only [List.reverse_nil, List.nil_append]
  rw [if_neg (by decide : ¬(descPlaceholderLine = fenceChars))]
  rw [fmScan_consume _ _ _ _ (by decide)]
  simp only [List.reverse_nil, List.nil_append, if_pos rfl]
  simp [String.data_append]

/-- Any list of the form `l ++ a :: r` is non-empty. -/
theorem isEmpty_append_cons {α : Type} (l : List α) (a : α) (r : List α) :
    (l ++ a :: r).isEmpty = false := by
  cases l <;> rfl

/-! ## Claim C4 -/

/-- C4: in a freshly scaffolded manifest the description value is the
literal un-replaced placeholder (which contains both `[` and `]`), so the
fresh skill directory fails the description-placeholder validation rule
and does not validate until the manifest is edited. -/
theorem C4_fresh_scaffold_fails_placeholder (n : String)
    (hn : specSkillNameOk n = true) :
    ∃ fm body,
      parseFrontmatter (skillMdContent n) = some (fm, body) ∧
      fieldValue descKeyChars fm = some descPlaceholderValue ∧
      '[' ∈ pyStrip descPlaceholderValue ∧ ']' ∈ pyStrip descPlaceholderValue ∧
      Violation.descriptionPlaceholder ∈ (validate (scaffoldedSkillDir n)).violations ∧
      (validate (scaffoldedSkillDir n)).isValid = false := by
  have hp := parse_skillMd n hn
  refine ⟨[("name: " ++ n).data, descPlaceholderLine], skillMdBody n, hp, ?_, by decide, by decide, ?_, ?_⟩
  · rfl
  · have hviol : (validate (scaffoldedSkillDir n)).violations =
        nameCheck [("name: " ++ n).data, descPlaceholderLine] ++
        descriptionChecks [("name: " ++ n).data, descPlaceholderLine] ++
        bodyCheck (skillMdBody n) ++ forbiddenCheck (scaffoldedSkillDir n) := by
      simp [validate, scaffoldedSkillDir, hp]
    have hdc : descriptionChecks [("name: " ++ n).data, descPlaceholderLine] =
        [Violation.descriptionPlaceholder] := by
      unfold descriptionChecks
      rw [show fieldValue descKeyChars [("name: " ++ n).data, descPlaceholderLine] =
        some descPlaceholderValue from rfl]
      decide
    rw [hviol, hdc]
    simp
  · have hviol : (validate (scaffoldedSkillDir n)).isValid =
        (nameCheck [("name: " ++ n).data, descPlaceholderLine] ++
        descriptionChecks [("name: " ++ n).data, descPlaceholderLine] ++
        bodyCheck (skillMdBody n) ++ forbiddenCheck (scaffoldedSkillDir n)).isEmpty := by
      simp [validate, scaffoldedSkillDir, hp]
    have hdc : descriptionChecks [("name: " ++ n).data, descPlaceholderLine] =
        [Violation.descriptionPlaceholder] := by
      unfold descriptionChecks
      rw [show fieldValue descKeyChars [("name: " ++ n).data, descPlaceholderLine] =
        some descPlaceholderValue from rfl]
      decide
    rw [hviol, hdc]
    simp only [List.append_assoc, List.singleton_append]
    exact isEmpty_append_cons _ _ _

/-- Witness for C4 at the concrete skill name `demo`. -/
theorem C4_witness :
    specSkillNameOk "demo" = true ∧
    (∃ fm body,
      parseFrontmatter (skillMdContent "demo") = some (fm, body) ∧
      fieldValue descKeyChars fm = some descPlaceholderValue ∧
      '[' ∈ pyStrip descPlaceholderValue ∧ ']' ∈ pyStrip descPlaceholderValue ∧
      Violation.descriptionPlaceholder ∈ (validate (scaffoldedSkillDir "demo")).violations ∧
      (validate (scaffoldedSkillDir "demo")).isValid = false) :=
  ⟨by decide, C4_fresh_scaffold_fails_placeholder "demo" (by decide)⟩



/-! ## Facts about the filesystem model -/

theorem lookupFile_none_of_not_exists {fs : FS} {p : FsPath}
    (h : pathExists fs p = false) : lookupFile fs p = none := by
  unfold pathExists at h
  simp only [Bool.or_eq_false_iff, List.any_eq_false, decide_eq_true_eq] at h
  unfold lookupFile
  rw [List.find?_eq_none.mpr]
  · rfl
  · intro e he
    simpa using h.2 e he

theorem pathExists_of_mem_dirs {fs : FS} {p : FsPath} (h : p ∈ fs.dirs) :
    pathExists fs p = true := by
  unfold pathExists
  simp only [Bool.or_eq_true, List.any_eq_true, decide_eq_true_eq]
  exact Or.inl (by simpa using h)

theorem pathExists_of_lookupFile {fs : FS} {p : FsPath} {c : String}
    (h : lookupFile fs p = some c) : pathExists fs p = true := by
  unfold lookupFile at h
  unfold pathExists
  rcases hf : fs.files.find? (fun e => e.1 = p) with _ | e
  · rw [hf] at h; cases h
  · have hmem := List.mem_of_find?_eq_some hf
    have hp := List.find?_some hf
    simp only [decide_eq_true_eq] at hp
    simp only [Bool.or_eq_true, List.any_eq_true, decide_eq_true_eq]
    exact Or.inr ⟨e, hmem, hp⟩

theorem strictPrefixes_concat (l : FsPath) (a : String) :
    strictPrefixes (l ++ [a]) = l.inits := by
  unfold strictPrefixes
  rw [List.inits_append]
  simp

theorem mem_strictPrefixes {q p : FsPath} (hq : q <+: p) (hne : q ≠ p) :
    q ∈ strictPrefixes p := by
  rcases List.eq_nil_or_concat p with rfl | ⟨p', a, rfl⟩
  · exact absurd (List.prefix_nil.mp hq) hne
  · rw [List.concat_eq_append] at hq hne ⊢
    rw [strictPrefixes_concat]
    rcases List.prefix_concat_iff.mp hq with h | h
    · exact absurd h hne
    · exact (List.mem_inits _ _).mpr h

theorem wf_dir_ancestor {fs : FS} (hwf : wfFS fs = true) {p q : FsPath}
    (hp : p ∈ fs.dirs) (hq : q <+: p) (hqp : q ≠ p) (hq0 : q ≠ []) :
    q ∈ fs.dirs := by
  unfold wfFS at hwf
  simp only [Bool.and_eq_true, List.all_eq_true] at hwf
  have := hwf.1 p hp
  simp only [Bool.and_eq_true, List.all_eq_true] at this
  have h2 := this.2 q (mem_strictPrefixes hq hqp)
  simp only [Bool.or_eq_true, decide_eq_true_eq] at h2
  rcases h2 with h2 | h2
  · exact absurd h2 hq0
  · simpa using h2

theorem wf_file_ancestor {fs : FS} (hwf : wfFS fs = true) {e : FsPath × String}
    (he : e ∈ fs.files) {q : FsPath} (hq : q <+: e.1) (hqe : q ≠ e.1) (hq0 : q ≠ []) :
    q ∈ fs.dirs := by
  unfold wfFS at hwf
  simp only [Bool.and_eq_true, List.all_eq_true] at hwf
  have := hwf.2 e he
  simp only [Bool.and_eq_true, List.all_eq_true] at this
  have h2 := this.1.2 q (mem_strictPrefixes hq hqe)
  simp only [Bool.or_eq_true, decide_eq_true_eq] at h2
  rcases h2 with h2 | h2
  · exact absurd h2 hq0
  · simpa using h2

/-- Under a well-formed filesystem, if a path does not exist then nothing
strictly below it exists either. -/
theorem not_exists_strict_under {fs : FS} (hwf : wfFS fs = true) {sd q : FsPath}
    (hsd0 : sd ≠ []) (hne : pathExists fs sd = false)
    (hq : sd <+: q) (hqne : q ≠ sd) : pathExists fs q = false := by
  cases hex : pathExists fs q
  · rfl
  · exfalso
    unfold pathExists at hex
    simp only [Bool.or_eq_true, List.any_eq_true, decide_eq_true_eq] at hex
    have hsd : sd ∈ fs.dirs := by
      rcases hex with h | ⟨e, he, hep⟩
      · exact wf_dir_ancestor hwf (by simpa using h) hq (fun hh => hqne hh.symm) hsd0
      · subst hep
        exact wf_file_ancestor hwf he hq (fun hh => hqne hh.symm) hsd0
    rw [pathExists_of_mem_dirs hsd] at hne
    cases hne

/-! ## Effect shapes of the filesystem operations -/

theorem doMkdirParents_files (fs : FS) (p : FsPath) :
    (doMkdirParents fs p).files = fs.files := rfl

theorem doWriteText_dirs (fs : FS) (p : FsPath) (c : String) :
    (doWriteText fs p c).dirs = fs.dirs := rfl

theorem doTouch_dirs (fs : FS) (p : FsPath) : (doTouch fs p).dirs = fs.dirs := by
  unfold doTouch
  split <;> rfl

theorem mem_dirs_doMkdirParents {fs : FS} {p q : FsPath} (hq : q <+: p) (hq0 : q ≠ []) :
    q ∈ (doMkdirParents fs p).dirs := by
  unfold doMkdirParents
  simp only [List.mem_append]
  by_cases h : q ∈ fs.dirs
  · exact Or.inl h
  · refine Or.inr (List.mem_filter.mpr ⟨(List.mem_inits _ _).mpr hq, ?_⟩)
    simp [hq0, h]

theorem dirs_subset_doMkdirParents (fs : FS) (p : FsPath) :
    fs.dirs ⊆ (doMkdirParents fs p).dirs := by
  intro q hq
  unfold doMkdirParents
  simp only [List.mem_append]
  exact Or.inl hq

theorem mem_dirs_doMkdirParents_elim {fs : FS} {p q : FsPath}
    (h : q ∈ (doMkdirParents fs p).dirs) : q ∈ fs.dirs ∨ q <+: p := by
  unfold doMkdirParents at h
  simp only [List.mem_append] at h
  rcases h with h | h
  · exact Or.inl h
  · exact Or.inr ((List.mem_inits _ _).mp (List.mem_filter.mp h).1)

theorem lookupFile_doMkdirParents (fs : FS) (p q : FsPath) :
    lookupFile (doMkdirParents fs p) q = lookupFile fs q := rfl

theorem pathExists_doMkdirParents_of {fs : FS} {p q : FsPath}
    (h : pathExists fs q = false) (hnp : ¬ q <+: p) :
    pathExists (doMkdirParents fs p) q = false := by
  unfold pathExists at h ⊢
  rw [doMkdirParents_files]
  simp only [Bool.or_eq_false_iff] at h ⊢
  refine ⟨?_, h.2⟩
  cases hc : (doMkdirParents fs p).dirs.contains q
  · rfl
  · exfalso
    have hm : q ∈ (doMkdirParents fs p).dirs := by simpa using hc
    rcases mem_dirs_doMkdirParents_elim hm with hm | hm
    · rw [show fs.dirs.contains q = true by simpa using hm] at h
      exact absurd h.1 (by simp)
    · exact hnp hm

theorem doWriteText_files_of_absent (fs : FS) (p : FsPath) (c : String)
    (h : ∀ e ∈ fs.files, ¬ e.1 = p) :
    (doWriteText fs p c).files = fs.files ++ [(p, c)] := by
  unfold doWriteText
  rw [List.filter_eq_self.mpr]
  intro e he
  simpa using h e he

theorem doTouch_files_of_new (fs : FS) (p : FsPath) (h : pathExists fs p = false) :
    (doTouch fs p).files = fs.files ++ [(p, "")] := by
  unfold doTouch
  rw [if_neg (by simp [h])]

/-! ## The canonical effect of a successful scaffold -/

/-- The four files scaffolding writes, with their contents — a function of
the skill name alone. -/
def scaffoldFiles (n : String) (sd : FsPath) : List (FsPath × String) :=
  [(sd ++ ["SKILL.md"], skillMdContent n),
   (sd ++ ["scripts", "example.py"], exampleScriptContent n),
   (sd ++ ["references", "example.md"], exampleReferenceContent n),
   (sd ++ ["assets", ".gitkeep"], "")]

/-- The missing ancestors of the output path that `mkdir(parents=True)`
creates as a side effect. -/
def newAncestorDirs (fs : FS) (out : FsPath) : List FsPath :=
  out.inits.filter (fun q => !(q = []) && !(fs.dirs.contains q))

theorem inits_concat (l : FsPath) (a : String) :
    (l ++ [a]).inits = l.inits ++ [l ++ [a]] := by
  rw [List.inits_append]
  simp

theorem not_prefix_sibling {sd : FsPath} {x y : String} (hxy : ¬ (x = y)) :
    ¬ (sd ++ [x] <+: sd ++ [y]) := by
  intro h
  have hlen : (sd ++ [x]).length = (sd ++ [y]).length := by simp
  have heq := h.eq_of_length hlen
  have := List.append_cancel_left heq
  injection this with h1 _
  exact hxy h1

theorem not_prefix_of_longer {p q : FsPath} (h : q.length < p.length) :
    ¬ (p <+: q) :=
  fun hp => absurd hp.length_le (by omega)

theorem FS_eq_mk {x : FS} {d : List FsPath} {f : List (FsPath × String)}
    (h1 : x.dirs = d) (h2 : x.files = f) : x = ⟨d, f⟩ := by
  cases x
  simp_all

theorem pathExists_of_mem_files {fs : FS} {e : FsPath × String} (h : e ∈ fs.files) :
    pathExists fs e.1 = true := by
  unfold pathExists
  simp only [Bool.or_eq_true, List.any_eq_true, decide_eq_true_eq]
  exact Or.inr ⟨e, h, rfl⟩

theorem doMkdirParents_dirs (fs : FS) (p : FsPath) :
    (doMkdirParents fs p).dirs =
      fs.dirs ++ p.inits.filter (fun q => !(q = []) && !(fs.dirs.contains q)) := rfl

theorem contains_false_of_not_exists {fs : FS} {q : FsPath}
    (h : pathExists fs q = false) : fs.dirs.contains q = false := by
  cases hc : fs.dirs.contains q
  · rfl
  · rw [pathExists_of_mem_dirs (by simpa using hc)] at h
    cases h

theorem files_any_false_of_not_exists {fs : FS} {q : FsPath}
    (h : pathExists fs q = false) : fs.files.any (fun e => e.1 = q) = false := by
  unfold pathExists at h
  exact (Bool.or_eq_false_iff.mp h).2

theorem mem_dirs_mkdir3_elim {fs : FS} {p1 p2 p3 q : FsPath}
    (h : q ∈ (doMkdirParents (doMkdirParents (doMkdirParents fs p1) p2) p3).dirs) :
    q ∈ fs.dirs ∨ q <+: p1 ∨ q <+: p2 ∨ q <+: p3 := by
  rcases mem_dirs_doMkdirParents_elim h with h | h
  · rcases mem_dirs_doMkdirParents_elim h with h | h
    · rcases mem_dirs_doMkdirParents_elim h with h | h
      · exact Or.inl h
      · exact Or.inr (Or.inl h)
    · exact Or.inr (Or.inr (Or.inl h))
  · exact Or.inr (Or.inr (Or.inr h))

theorem contains3_false {fs : FS} {p1 p2 p3 q : FsPath}
    (h0 : pathExists fs q = false) (h1 : ¬ q <+: p1) (h2 : ¬ q <+: p2)
    (h3 : ¬ q <+: p3) :
    (doMkdirParents (doMkdirParents (doMkdirParents fs p1) p2) p3).dirs.contains q
      = false := by
  cases hc : (doMkdirParents (doMkdirParents (doMkdirParents fs p1) p2) p3).dirs.contains q
  · rfl
  · exfalso
    rcases mem_dirs_mkdir3_elim (by simpa using hc) with hm | hm | hm | hm
    · rw [pathExists_of_mem_dirs hm] at h0; cases h0
    · exact h1 hm
    · exact h2 hm
    · exact h3 hm

theorem filter_singleton_of_true {α : Type} (p : α → Bool) (x : α) (h : p x = true) :
    List.filter p [x] = [x] := by
  simp [List.filter_cons, h]

/-- The canonical effect of a successful run of `create_skill_directory`:
under a well-formed filesystem in which the target does not exist and no
ancestor of the target is a file, the run succeeds and adds exactly the
missing ancestor directories of the output path, the four skill
directories, and the four template files. -/
theorem create_skill_directory_canonical (n : String) (out : FsPath) (fs : FS)
    (hwf : wfFS fs = true)
    (hne : pathExists fs (out ++ [n]) = false)
    (hanc : ∀ q, q <+: out → lookupFile fs q = none) :
    create_skill_directory n out fs =
      (0, ⟨fs.dirs ++ newAncestorDirs fs out ++
            [out ++ [n], out ++ [n, "scripts"], out ++ [n, "references"],
             out ++ [n, "assets"]],
          fs.files ++ scaffoldFiles n (out ++ [n])⟩) := by
  have hcat1 : out ++ [n, "scripts"] = (out ++ [n]) ++ ["scripts"] := by simp
  have hcat2 : out ++ [n, "references"] = (out ++ [n]) ++ ["references"] := by simp
  have hcat3 : out ++ [n, "assets"] = (out ++ [n]) ++ ["assets"] := by simp
  have hcatMd : out ++ [n, "SKILL.md"] = (out ++ [n]) ++ ["SKILL.md"] := by simp
  have hcatPy : out ++ [n, "scripts", "example.py"] =
      (out ++ [n, "scripts"]) ++ ["example.py"] := by simp
  have hcatEx : out ++ [n, "references", "example.md"] =
      (out ++ [n, "references"]) ++ ["example.md"] := by simp
  have hcatGk : out ++ [n, "assets", ".gitkeep"] =
      (out ++ [n, "assets"]) ++ [".gitkeep"] := by simp
  have hcatPy2 : out ++ [n, "scripts", "example.py"] =
      (out ++ [n]) ++ ["scripts", "example.py"] := by simp
  have hcatEx2 : out ++ [n, "references", "example.md"] =
      (out ++ [n]) ++ ["references", "example.md"] := by simp
  have hcatGk2 : out ++ [n, "assets", ".gitkeep"] =
      (out ++ [n]) ++ ["assets", ".gitkeep"] := by simp
  have hsd0 : out ++ [n] ≠ [] := by simp
  have hNE : ∀ q : FsPath, out ++ [n] <+: q → q ≠ out ++ [n] → pathExists fs q = false :=
    fun q hq hqne => not_exists_strict_under hwf hsd0 hne hq hqne
  have hsdlook : lookupFile fs (out ++ [n]) = none := lookupFile_none_of_not_exists hne
  have hinitlook : ∀ q ∈ (out ++ [n]).inits, lookupFile fs q = none := by
    intro q hq
    rcases List.prefix_concat_iff.mp ((List.mem_inits _ _).mp hq) with h | h
    · rw [h]; exact hsdlook
    · exact hanc q h
  have hpfxsd1 : out ++ [n] <+: out ++ [n, "scripts"] := by
    rw [hcat1]; exact List.prefix_append _ _
  have hpfxsd2 : out ++ [n] <+: out ++ [n, "references"] := by
    rw [hcat2]; exact List.prefix_append _ _
  have hpfxsd3 : out ++ [n] <+: out ++ [n, "assets"] := by
    rw [hcat3]; exact List.prefix_append _ _
  have hexScripts : pathExists fs (out ++ [n, "scripts"]) = false :=
    hNE _ hpfxsd1 (by simp)
  have hexRefs : pathExists fs (out ++ [n, "references"]) = false :=
    hNE _ hpfxsd2 (by simp)
  have hexAssets : pathExists fs (out ++ [n, "assets"]) = false :=
    hNE _ hpfxsd3 (by simp)
  have hexMd : pathExists fs (out ++ [n, "SKILL.md"]) = false :=
    hNE _ (by rw [hcatMd]; exact List.prefix_append _ _) (by simp)
  have hexPy : pathExists fs (out ++ [n, "scripts", "example.py"]) = false :=
    hNE _ (by rw [show out ++ [n, "scripts", "example.py"] =
      (out ++ [n]) ++ ["scripts", "example.py"] by simp]; exact List.prefix_append _ _)
      (by simp)
  have hexEx : pathExists fs (out ++ [n, "references", "example.md"]) = false :=
    hNE _ (by rw [show out ++ [n, "references", "example.md"] =
      (out ++ [n]) ++ ["references", "example.md"] by simp]; exact List.prefix_append _ _)
      (by simp)
  have hexGk : pathExists fs (out ++ [n, "assets", ".gitkeep"]) = false :=
    hNE _ (by rw [show out ++ [n, "assets", ".gitkeep"] =
      (out ++ [n]) ++ ["assets", ".gitkeep"] by simp]; exact List.prefix_append _ _)
      (by simp)
  -- mkdir preconditions
  have hcan1 : canMkdirParents fs (out ++ [n, "scripts"]) = true := by
    unfold canMkdirParents
    rw [hexScripts, hcat1, strictPrefixes_concat]
    simp only [Bool.not_false, Bool.true_and, List.all_eq_true]
    intro q hq
    rw [hinitlook q hq]
    rfl
  have hex1Refs : pathExists (doMkdirParents fs (out ++ [n, "scripts"]))
      (out ++ [n, "references"]) = false :=
    pathExists_doMkdirParents_of hexRefs
      (by rw [hcat1, hcat2]; exact not_prefix_sibling (by decide))
  have hcan2 : canMkdirParents (doMkdirParents fs (out ++ [n, "scripts"]))
      (out ++ [n, "references"]) = true := by
    unfold canMkdirParents
    rw [hex1Refs, hcat2, strictPrefixes_concat]
    simp only [Bool.not_false, Bool.true_and, List.all_eq_true]
    intro q hq
    rw [lookupFile_doMkdirParents, hinitlook q hq]
    rfl
  have hex2Assets : pathExists
      (doMkdirParents (doMkdirParents fs (out ++ [n, "scripts"]))
        (out ++ [n, "references"])) (out ++ [n, "assets"]) = false :=
    pathExists_doMkdirParents_of
      (pathExists_doMkdirParents_of hexAssets
        (by rw [hcat1, hcat3]; exact not_prefix_sibling (by decide)))
      (by rw [hcat2, hcat3]; exact not_prefix_sibling (by decide))
  have hcan3 : canMkdirParents
      (doMkdirParents (doMkdirParents fs (out ++ [n, "scripts"]))
        (out ++ [n, "references"])) (out ++ [n, "assets"]) = true := by
    unfold canMkdirParents
    rw [hex2Assets, hcat3, strictPrefixes_concat]
    simp only [Bool.not_false, Bool.true_and, List.all_eq_true]
    intro q hq
    rw [lookupFile_doMkdirParents, lookupFile_doMkdirParents, hinitlook q hq]
    rfl
  -- membership of the created directories
  have hmem_sd1 : out ++ [n] ∈ (doMkdirParents fs (out ++ [n, "scripts"])).dirs :=
    mem_dirs_doMkdirParents hpfxsd1 hsd0
  have hmem_p1 : out ++ [n, "scripts"]
      ∈ (doMkdirParents fs (out ++ [n, "scripts"])).dirs :=
    mem_dirs_doMkdirParents List.prefix_rfl (by simp)
  have hmem_sd3 : out ++ [n] ∈
      (doMkdirParents (doMkdirParents (doMkdirParents fs (out ++ [n, "scripts"]))
        (out ++ [n, "references"])) (out ++ [n, "assets"])).dirs :=
    dirs_subset_doMkdirParents _ _ (dirs_subset_doMkdirParents _ _ hmem_sd1)
  have hmem_p1_3 : out ++ [n, "scripts"] ∈
      (doMkdirParents (doMkdirParents (doMkdirParents fs (out ++ [n, "scripts"]))
        (out ++ [n, "references"])) (out ++ [n, "assets"])).dirs :=
    dirs_subset_doMkdirParents _ _ (dirs_subset_doMkdirParents _ _ hmem_p1)
  have hmem_p2_3 : out ++ [n, "references"] ∈
      (doMkdirParents (doMkdirParents (doMkdirParents fs (out ++ [n, "scripts"]))
        (out ++ [n, "references"])) (out ++ [n, "assets"])).dirs :=
    dirs_subset_doMkdirParents _ _
      (mem_dirs_doMkdirParents List.prefix_rfl (by simp))
  have hmem_p3_3 : out ++ [n, "assets"] ∈
      (doMkdirParents (doMkdirParents (doMkdirParents fs (out ++ [n, "scripts"]))
        (out ++ [n, "references"])) (out ++ [n, "assets"])).dirs :=
    mem_dirs_doMkdirParents List.prefix_rfl (by simp)
  -- write and touch preconditions
  have hcw1 : canWriteText
      (doMkdirParents (doMkdirParents (doMkdirParents fs (out ++ [n, "scripts"]))
        (out ++ [n, "references"])) (out ++ [n, "assets"]))
      (out ++ [n, "SKILL.md"]) = true := by
    unfold canWriteText isDirOf
    rw [show (out ++ [n, "SKILL.md"]).dropLast = out ++ [n] from by
      rw [hcatMd]; exact List.dropLast_concat]
    rw [contains3_false hexMd
      (by rw [hcatMd, hcat1]; exact not_prefix_sibling (by decide))
      (by rw [hcatMd, hcat2]; exact not_prefix_sibling (by decide))
      (by rw [hcatMd, hcat3]; exact not_prefix_sibling (by decide))]
    rw [show (doMkdirParents (doMkdirParents (doMkdirParents fs
      (out ++ [n, "scripts"])) (out ++ [n, "references"]))
      (out ++ [n, "assets"])).dirs.contains (out ++ [n]) = true from by
        simpa using hmem_sd3]
    simp
  have hcw2 : canWriteText
      (doWriteText (doMkdirParents (doMkdirParents (doMkdirParents fs
        (out ++ [n, "scripts"])) (out ++ [n, "references"])) (out ++ [n, "assets"]))
        (out ++ [n, "SKILL.md"]) (skillMdContent n))
      (out ++ [n, "scripts", "example.py"]) = true := by
    unfold canWriteText isDirOf
    rw [doWriteText_dirs]
    rw [show (out ++ [n, "scripts", "example.py"]).dropLast = out ++ [n, "scripts"] from by
      rw [hcatPy]; exact List.dropLast_concat]
    rw [contains3_false hexPy
      (not_prefix_of_longer (by simp))
      (not_prefix_of_longer (by simp))
      (not_prefix_of_longer (by simp))]
    rw [show (doMkdirParents (doMkdirParents (doMkdirParents fs
      (out ++ [n, "scripts"])) (out ++ [n, "references"]))
      (out ++ [n, "assets"])).dirs.contains (out ++ [n, "scripts"]) = true from by
        simpa using hmem_p1_3]
    simp
  have hcw3 : canWriteText
      (doWriteText (doWriteText (doMkdirParents (doMkdirParents (doMkdirParents fs
        (out ++ [n, "scripts"])) (out ++ [n, "references"])) (out ++ [n, "assets"]))
        (out ++ [n, "SKILL.md"]) (skillMdContent n))
        (out ++ [n, "scripts", "example.py"]) (exampleScriptContent n))
      (out ++ [n, "references", "example.md"]) = true := by
    unfold canWriteText isDirOf
    rw [doWriteText_dirs, doWriteText_dirs]
    rw [show (out ++ [n, "references", "example.md"]).dropLast =
      out ++ [n, "references"] from by rw [hcatEx]; exact List.dropLast_concat]
    rw [contains3_false hexEx
      (not_prefix_of_longer (by simp))
      (not_prefix_of_longer (by simp))
      (not_prefix_of_longer (by simp))]
    rw [show (doMkdirParents (doMkdirParents (doMkdirParents fs
      (out ++ [n, "scripts"])) (out ++ [n, "references"]))
      (out ++ [n, "assets"])).dirs.contains (out ++ [n, "references"]) = true from by
        simpa using hmem_p2_3]
    simp
  have hct : canTouch
      (doWriteText (doWriteText (doWriteText (doMkdirParents (doMkdirParents
        (doMkdirParents fs (out ++ [n, "scripts"])) (out ++ [n, "references"]))
        (out ++ [n, "assets"])) (out ++ [n, "SKILL.md"]) (skillMdContent n))
        (out ++ [n, "scripts", "example.py"]) (exampleScriptContent n))
        (out ++ [n, "references", "example.md"]) (exampleReferenceContent n))
      (out ++ [n, "assets", ".gitkeep"]) = true := by
    unfold canTouch isDirOf
    rw [doWriteText_dirs, doWriteText_dirs, doWriteText_dirs]
    rw [show (out ++ [n, "assets", ".gitkeep"]).dropLast = out ++ [n, "assets"] from by
      rw [hcatGk]; exact List.dropLast_concat]
    rw [show (doMkdirParents (doMkdirParents (doMkdirParents fs
      (out ++ [n, "scripts"])) (out ++ [n, "references"]))
      (out ++ [n, "assets"])).dirs.contains (out ++ [n, "assets"]) = true from by
        simpa using hmem_p3_3]
    simp
  -- directory-set equations for the three mkdir steps
  have hnmem_sd : out ++ [n] ∉ fs.dirs := by
    simpa using contains_false_of_not_exists hne
  have hnmem_scr : out ++ [n, "scripts"] ∉ fs.dirs := by
    simpa using contains_false_of_not_exists hexScripts
  have e1 : (doMkdirParents fs (out ++ [n, "scripts"])).dirs =
      fs.dirs ++ (newAncestorDirs fs out ++ [out ++ [n], out ++ [n, "scripts"]]) := by
    rw [doMkdirParents_dirs]
    congr 1
    rw [hcat1, inits_concat (out ++ [n]) "scripts", inits_concat out n,
      List.filter_append, List.filter_append]
    unfold newAncestorDirs
    simp [List.filter_cons, hnmem_sd, hnmem_scr]
  have hnmem_ref1 : out ++ [n, "references"]
      ∉ (doMkdirParents fs (out ++ [n, "scripts"])).dirs := by
    simpa using contains_false_of_not_exists hex1Refs
  have e2 : (doMkdirParents (doMkdirParents fs (out ++ [n, "scripts"]))
      (out ++ [n, "references"])).dirs =
      (doMkdirParents fs (out ++ [n, "scripts"])).dirs ++ [out ++ [n, "references"]] := by
    rw [doMkdirParents_dirs]
    congr 1
    rw [hcat2, inits_concat (out ++ [n]) "references", List.filter_append]
    have hzero : List.filter
        (fun q => !(q = []) &&
          !((doMkdirParents fs (out ++ [n, "scripts"])).dirs.contains q))
        (out ++ [n]).inits = [] := by
      rw [List.filter_eq_nil_iff]
      intro q hq
      by_cases hq0 : q = []
      · simp [hq0]
      · have hqm : q ∈ (doMkdirParents fs (out ++ [n, "scripts"])).dirs :=
          mem_dirs_doMkdirParents (((List.mem_inits _ _).mp hq).trans hpfxsd1) hq0
        simp [hqm]
    rw [hzero]
    simp [List.filter_cons, hnmem_ref1]
  have hnmem_ast2 : out ++ [n, "assets"]
      ∉ (doMkdirParents (doMkdirParents fs (out ++ [n, "scripts"]))
        (out ++ [n, "references"])).dirs := by
    simpa using contains_false_of_not_exists hex2Assets
  have e3 : (doMkdirParents (doMkdirParents (doMkdirParents fs
      (out ++ [n, "scripts"])) (out ++ [n, "references"]))
      (out ++ [n, "assets"])).dirs =
      (doMkdirParents (doMkdirParents fs (out ++ [n, "scripts"]))
        (out ++ [n, "references"])).dirs ++ [out ++ [n, "assets"]] := by
    rw [doMkdirParents_dirs]
    congr 1
    rw [hcat3, inits_concat (out ++ [n]) "assets", List.filter_append]
    have hzero : List.filter
        (fun q => !(q = []) &&
          !((doMkdirParents (doMkdirParents fs (out ++ [n, "scripts"]))
            (out ++ [n, "references"])).dirs.contains q))
        (out ++ [n]).inits = [] := by
      rw [List.filter_eq_nil_iff]
      intro q hq
      by_cases hq0 : q = []
      · simp [hq0]
      · have hqm : q ∈ (doMkdirParents (doMkdirParents fs (out ++ [n, "scripts"]))
            (out ++ [n, "references"])).dirs :=
          dirs_subset_doMkdirParents _ _
            (mem_dirs_doMkdirParents (((List.mem_inits _ _).mp hq).trans hpfxsd1) hq0)
        simp [hqm]
    rw [hzero]
    simp [List.filter_cons, hnmem_ast2]
  -- file-list equations for the three writes and the touch
  have habs1 : ∀ e ∈ fs.files, ¬(e.1 = out ++ [n, "SKILL.md"]) := by
    intro e he hef
    have hex := pathExists_of_mem_files he
    rw [hef, hexMd] at hex
    simp at hex
  have ef1 : (doWriteText (doMkdirParents (doMkdirParents (doMkdirParents fs
      (out ++ [n, "scripts"])) (out ++ [n, "references"])) (out ++ [n, "assets"]))
      (out ++ [n, "SKILL.md"]) (skillMdContent n)).files =
      fs.files ++ [(out ++ [n, "SKILL.md"], skillMdContent n)] := by
    rw [doWriteText_files_of_absent
      (doMkdirParents (doMkdirParents (doMkdirParents fs (out ++ [n, "scripts"]))
        (out ++ [n, "references"])) (out ++ [n, "assets"]))
      (out ++ [n, "SKILL.md"]) (skillMdContent n) (fun e he => habs1 e he)]
    rfl
  have habs2 : ∀ e ∈ fs.files ++ [(out ++ [n, "SKILL.md"], skillMdContent n)],
      ¬(e.1 = out ++ [n, "scripts", "example.py"]) := by
    intro e he hef
    rcases List.mem_append.mp he with he | he
    · have hex := pathExists_of_mem_files he
      rw [hef, hexPy] at hex
      simp at hex
    · simp only [List.mem_singleton] at he
      subst he
      have h2 := List.append_cancel_left hef
      injection h2 with _ h3
      exact absurd h3 (by decide)
  have ef2 : (doWriteText (doWriteText (doMkdirParents (doMkdirParents
      (doMkdirParents fs (out ++ [n, "scripts"])) (out ++ [n, "references"]))
      (out ++ [n, "assets"])) (out ++ [n, "SKILL.md"]) (skillMdContent n))
      (out ++ [n, "scripts", "example.py"]) (exampleScriptContent n)).files =
      fs.files ++ [(out ++ [n, "SKILL.md"], skillMdContent n),
        (out ++ [n, "scripts", "example.py"], exampleScriptContent n)] := by
    rw [doWriteText_files_of_absent
      (doWriteText (doMkdirParents (doMkdirParents (doMkdirParents fs
        (out ++ [n, "scripts"])) (out ++ [n, "references"])) (out ++ [n, "assets"]))
        (out ++ [n, "SKILL.md"]) (skillMdContent n))
      (out ++ [n, "scripts", "example.py"]) (exampleScriptContent n)
      (fun e he => habs2 e (ef1 ▸ he)), ef1]
    simp
  have habs3 : ∀ e ∈ fs.files ++ [(out ++ [n, "SKILL.md"], skillMdContent n),
      (out ++ [n, "scripts", "example.py"], exampleScriptContent n)],
      ¬(e.1 = out ++ [n, "references", "example.md"]) := by
    intro e he hef
    rcases List.mem_append.mp he with he | he
    · have hex := pathExists_of_mem_files he
      rw [hef, hexEx] at hex
      simp at hex
    · simp only [List.mem_cons, List.not_mem_nil, or_false] at he
      rcases he with he | he
      · subst he
        have h2 := List.append_cancel_left hef
        injection h2 with _ h3
        exact absurd h3 (by decide)
      · subst he
        have h2 := List.append_cancel_left hef
        injection h2 with _ h3
        exact absurd h3 (by decide)
  have ef3 : (doWriteText (doWriteText (doWriteText (doMkdirParents (doMkdirParents
      (doMkdirParents fs (out ++ [n, "scripts"])) (out ++ [n, "references"]))
      (out ++ [n, "assets"])) (out ++ [n, "SKILL.md"]) (skillMdContent n))
      (out ++ [n, "scripts", "example.py"]) (exampleScriptContent n))
      (out ++ [n, "references", "example.md"]) (exampleReferenceContent n)).files =
      fs.files ++ [(out ++ [n, "SKILL.md"], skillMdContent n),
        (out ++ [n, "scripts", "example.py"], exampleScriptContent n),
        (out ++ [n, "references", "example.md"], exampleReferenceContent n)] := by
    rw [doWriteText_files_of_absent
      (doWriteText (doWriteText (doMkdirParents (doMkdirParents (doMkdirParents fs
        (out ++ [n, "scripts"])) (out ++ [n, "references"])) (out ++ [n, "assets"]))
        (out ++ [n, "SKILL.md"]) (skillMdContent n))
        (out ++ [n, "scripts", "example.py"]) (exampleScriptContent n))
      (out ++ [n, "references", "example.md"]) (exampleReferenceContent n)
      (fun e he => habs3 e (ef2 ▸ he)), ef2]
    simp
  have hexTouch : pathExists
      (doWriteText (doWriteText (doWriteText (doMkdirParents (doMkdirParents
        (doMkdirParents fs (out ++ [n, "scripts"])) (out ++ [n, "references"]))
        (out ++ [n, "assets"])) (out ++ [n, "SKILL.md"]) (skillMdContent n))
        (out ++ [n, "scripts", "example.py"]) (exampleScriptContent n))
        (out ++ [n, "references", "example.md"]) (exampleReferenceContent n))
      (out ++ [n, "assets", ".gitkeep"]) = false := by
    unfold pathExists
    rw [doWriteText_dirs, doWriteText_dirs, doWriteText_dirs]
    rw [contains3_false hexGk
      (not_prefix_of_longer (by simp))
      (not_prefix_of_longer (by simp))
      (not_prefix_of_longer (by simp))]
    rw [ef3]
    rw [List.any_append, files_any_false_of_not_exists hexGk]
    simp
  have eft : (doTouch (doWriteText (doWriteText (doWriteText (doMkdirParents
      (doMkdirParents (doMkdirParents fs (out ++ [n, "scripts"]))
      (out ++ [n, "references"])) (out ++ [n, "assets"]))
      (out ++ [n, "SKILL.md"]) (skillMdContent n))
      (out ++ [n, "scripts", "example.py"]) (exampleScriptContent n))
      (out ++ [n, "references", "example.md"]) (exampleReferenceContent n))
      (out ++ [n, "assets", ".gitkeep"])).files =
      fs.files ++ scaffoldFiles n (out ++ [n]) := by
    rw [doTouch_files_of_new _ _ hexTouch, ef3]
    simp [scaffoldFiles]
  -- run the program
  simp only [create_skill_directory]
  rw [if_neg (by simp [hne])]
  rw [if_neg (by simp [hcan1])]
  rw [if_neg (by simp [hcan2])]
  rw [if_neg (by simp [hcan3])]
  rw [if_neg (by simp [hcw1])]
  rw [if_neg (by simp [hcw2])]
  rw [if_neg (by simp [hcw3])]
  rw [if_neg (by simp [hct])]
  rw [← hcat1, ← hcat2, ← hcat3, ← hcatMd, ← hcatPy2, ← hcatEx2, ← hcatGk2]
  refine congrArg (Prod.mk 0) (FS_eq_mk ?_ ?_)
  · rw [doTouch_dirs, doWriteText_dirs, doWriteText_dirs, doWriteText_dirs, e3, e2, e1]
    simp
  · exact eft

/-! ## Claim C3 -/

theorem not_pySpace_of_allowed {c : Char} (h : isAllowedChar c = true) :
    isPySpace c = false := by
  cases hps : isPySpace c
  · rfl
  · exfalso
    simp only [isPySpace, Bool.or_eq_true, decide_eq_true_eq] at hps
    rcases hps with ((((h1 | h1) | h1) | h1) | h1) | h1 <;> subst h1 <;>
      exact absurd h (by decide)

theorem dropWhile_eq_self_of_not_space {l : List Char}
    (h : ∀ c ∈ l, isPySpace c = false) : l.dropWhile isPySpace = l := by
  cases l with
  | nil => rfl
  | cons c cs => simp [List.dropWhile_cons, h c (by simp)]

theorem allowed_of_specOk {n : String} (hn : specSkillNameOk n = true) :
    ∀ c ∈ n.data, isAllowedChar c = true := by
  unfold specSkillNameOk at hn
  simp only [Bool.and_eq_true, List.all_eq_true] at hn
  exact fun c hc => hn.2 c hc

/-- The value of the template's `name:` line, trimmed, is the skill name. -/
theorem pyStrip_space_name {n : String} (hn : specSkillNameOk n = true) :
    pyStrip (' ' :: n.data) = n.data := by
  have h' : ∀ c ∈ n.data, isPySpace c = false :=
    fun c hc => not_pySpace_of_allowed (allowed_of_specOk hn c hc)
  unfold pyStrip
  rw [show List.dropWhile isPySpace (' ' :: n.data) = List.dropWhile isPySpace n.data from by
    rw [List.dropWhile_cons, if_pos (by decide)]]
  rw [dropWhile_eq_self_of_not_space h']
  rw [dropWhile_eq_self_of_not_space (fun c hc => h' c (List.mem_reverse.mp hc))]
  exact List.reverse_reverse _

/-- C3: for an accepted skill name into a fresh, well-formed location, the
scaffold succeeds, creates the skill directory with its `scripts/`,
`references/` and `assets/` subdirectories, and writes `SKILL.md` whose
content starts with a `---` fence at the very start of the file, has a
frontmatter block containing a `name:` line whose (trimmed) value is the
skill name and a `description:` line, and whose closing `---` fence is
followed by non-empty body text. -/
theorem C3_scaffold_creates_structure (n : String) (out : FsPath) (fs : FS)
    (hn : specSkillNameOk n = true)
    (hwf : wfFS fs = true)
    (hne : pathExists fs (out ++ [n]) = false)
    (hanc : ∀ q, q <+: out → lookupFile fs q = none) :
    (create_skill_directory n out fs).1 = 0 ∧
    (out ++ [n]) ∈ (create_skill_directory n out fs).2.dirs ∧
    (out ++ [n, "scripts"]) ∈ (create_skill_directory n out fs).2.dirs ∧
    (out ++ [n, "references"]) ∈ (create_skill_directory n out fs).2.dirs ∧
    (out ++ [n, "assets"]) ∈ (create_skill_directory n out fs).2.dirs ∧
    lookupFile (create_skill_directory n out fs).2 (out ++ [n, "SKILL.md"]) =
      some (skillMdContent n) ∧
    (∃ r, skillMdContent n = "---\n" ++ r) ∧
    (∃ fm body, parseFrontmatter (skillMdContent n) = some (fm, body) ∧
      ("name: " ++ n).data ∈ fm ∧
      pyStrip (("name: " ++ n).data.drop nameKeyChars.length) = n.data ∧
      (∃ l ∈ fm, descKeyChars.isPrefixOf l = true) ∧
      body ≠ []) := by
  have hcanon := create_skill_directory_canonical n out fs hwf hne hanc
  rw [hcanon]
  have hexMd : pathExists fs (out ++ [n, "SKILL.md"]) = false :=
    not_exists_strict_under hwf (by simp) hne
      (by rw [show out ++ [n, "SKILL.md"] = (out ++ [n]) ++ ["SKILL.md"] by simp]
          exact List.prefix_append _ _)
      (by simp)
  refine ⟨rfl, by simp, by simp, by simp, by simp, ?_, ?_, ?_⟩
  · -- the SKILL.md lookup
    unfold lookupFile
    have hnofile : fs.files.find? (fun e => e.1 = out ++ [n, "SKILL.md"]) = none := by
      rw [List.find?_eq_none]
      intro e he
      simp only [decide_eq_true_eq]
      intro hef
      have hex := pathExists_of_mem_files he
      rw [hef, hexMd] at hex
      simp at hex
    show ((fs.files ++ scaffoldFiles n (out ++ [n])).find?
      (fun e => e.1 = out ++ [n, "SKILL.md"])).map (fun e => e.2) = _
    rw [List.find?_append, hnofile]
    simp [scaffoldFiles]
  · -- the manifest starts with the fence line
    refine ⟨"name: " ++ n ++
      "\ndescription: [Describe what this skill does and when to use it - minimum 50 characters]\n---\n\n# "
      ++ skillTitle n ++
      "\n\n## Overview\n\n[Describe the skill's purpose and capabilities]\n\n## Usage\n\n[Explain how to use this skill with examples]\n\n## Resources\n\n- `scripts/` - Executable scripts for deterministic tasks\n- `references/` - Documentation loaded as needed\n- `assets/` - Templates and files used in output\n",
      String.ext ?_⟩
    simp only [skillMdContent, String.data_append, List.append_assoc]
    rfl
  · -- the parsed structure
    refine ⟨[("name: " ++ n).data, descPlaceholderLine], skillMdBody n,
      parse_skillMd n hn, by simp, ?_, ⟨descPlaceholderLine, by simp, by decide⟩, ?_⟩
    · rw [show ("name: " ++ n).data.drop nameKeyChars.length = ' ' :: n.data from rfl]
      exact pyStrip_space_name hn
    · intro h
      have hh := congrArg List.head? h
      rw [show (skillMdBody n).head? = some '\n' from rfl] at hh
      cases hh

/-- Witness for C3: scaffolding `demo` into an empty filesystem under the
output path `out`. -/
theorem C3_witness :
    (create_skill_directory "demo" ["out"] ⟨[], []⟩).1 = 0 ∧
    (["out"] ++ ["demo"]) ∈ (create_skill_directory "demo" ["out"] ⟨[], []⟩).2.dirs ∧
    (["out"] ++ ["demo", "scripts"]) ∈
      (create_skill_directory "demo" ["out"] ⟨[], []⟩).2.dirs ∧
    (["out"] ++ ["demo", "references"]) ∈
      (create_skill_directory "demo" ["out"] ⟨[], []⟩).2.dirs ∧
    (["out"] ++ ["demo", "assets"]) ∈
      (create_skill_directory "demo" ["out"] ⟨[], []⟩).2.dirs ∧
    lookupFile (create_skill_directory "demo" ["out"] ⟨[], []⟩).2
      (["out"] ++ ["demo", "SKILL.md"]) = some (skillMdContent "demo") ∧
    (∃ r, skillMdContent "demo" = "---\n" ++ r) ∧
    (∃ fm body, parseFrontmatter (skillMdContent "demo") = some (fm, body) ∧
      ("name: " ++ "demo").data ∈ fm ∧
      pyStrip (("name: " ++ "demo").data.drop nameKeyChars.length) = "demo".data ∧
      (∃ l ∈ fm, descKeyChars.isPrefixOf l = true) ∧
      body ≠ []) :=
  C3_scaffold_creates_structure "demo" ["out"] ⟨[], []⟩ (by decide) (by decide)
    (by decide) (fun q _ => rfl)

/-! ## Claim C9 -/

theorem find?_filter_ne {l : List (FsPath × String)} {p q : FsPath} (hqp : ¬ q = p) :
    (l.filter (fun e => !(e.1 = p))).find? (fun e => e.1 = q) =
      l.find? (fun e => e.1 = q) := by
  induction l with
  | nil => rfl
  | cons e es ih =>
    by_cases heq : e.1 = q
    · have hep : ¬(e.1 = p) := fun hh => hqp (heq.symm.trans hh)
      rw [List.filter_cons, if_pos (by simpa using hep)]
      rw [List.find?_cons_of_pos _ (by simpa using heq),
        List.find?_cons_of_pos _ (by simpa using heq)]
    · by_cases hep : e.1 = p
      · rw [List.filter_cons, if_neg (by simpa using hep)]
        rw [List.find?_cons_of_neg _ (by simpa using heq), ih]
      · rw [List.filter_cons, if_pos (by simpa using hep)]
        rw [List.find?_cons_of_neg _ (by simpa using heq),
          List.find?_cons_of_neg _ (by simpa using heq), ih]

theorem find?_pair_singleton_ne {p q : FsPath} {c : String} (hqp : ¬ q = p) :
    List.find? (fun e => e.1 = q) [(p, c)] = none := by
  rw [List.find?_cons_of_neg _ (by simp; exact fun hh => hqp hh.symm)]
  rfl

theorem lookupFile_doWriteText_ne (fs : FS) (p q : FsPath) (c : String)
    (hqp : ¬ q = p) :
    lookupFile (doWriteText fs p c) q = lookupFile fs q := by
  unfold lookupFile doWriteText
  show ((fs.files.filter (fun e => !(e.1 = p)) ++ [(p, c)]).find?
    (fun e => e.1 = q)).map (fun e => e.2) =
    (fs.files.find? (fun e => e.1 = q)).map (fun e => e.2)
  rw [List.find?_append, find?_filter_ne hqp, find?_pair_singleton_ne hqp,
    Option.or_none]

theorem lookupFile_doTouch_ne (fs : FS) (p q : FsPath) (hqp : ¬ q = p) :
    lookupFile (doTouch fs p) q = lookupFile fs q := by
  unfold doTouch
  split
  · rfl
  · unfold lookupFile
    show ((fs.files ++ [(p, "")]).find? (fun e => e.1 = q)).map (fun e => e.2) =
      (fs.files.find? (fun e => e.1 = q)).map (fun e => e.2)
    rw [List.find?_append, find?_pair_singleton_ne hqp, Option.or_none]

/-- Counterexample to C9 as stated: scaffolding `demo` into the
non-existent output path `o` on an empty filesystem succeeds and creates
the directory `o` itself, which does not lie inside the skill directory
`o/demo` — `mkdir(parents=True)` creates missing ancestors outside the
skill directory. -/
theorem C9_counterexample :
    (create_skill_directory "demo" ["o"] ⟨[], []⟩).1 = 0 ∧
    (["o"] : FsPath) ∈ (create_skill_directory "demo" ["o"] ⟨[], []⟩).2.dirs ∧
    pathExists ⟨[], []⟩ ["o"] = false ∧
    ¬ ((["o", "demo"] : FsPath) <+: ["o"]) := by
  refine ⟨by decide, by decide, by decide, by decide⟩

/-- C9 (amended): when scaffolding succeeds, all paths created lie inside
the skill directory or are previously-missing ancestor directories of it
(created by `mkdir(parents=True)`); no path outside the skill directory
has its file content created, modified, or deleted, and no directory is
ever removed. -/
theorem C9_scaffold_frame (n : String) (out : FsPath) (fs : FS)
    (h : (create_skill_directory n out fs).1 = 0) :
    (∀ p : FsPath, ¬ (out ++ [n]) <+: p →
      lookupFile (create_skill_directory n out fs).2 p = lookupFile fs p) ∧
    (∀ p : FsPath, p ∈ (create_skill_directory n out fs).2.dirs →
      p ∈ fs.dirs ∨ p <+: (out ++ [n]) ∨ (out ++ [n]) <+: p) ∧
    (∀ p : FsPath, p ∈ fs.dirs → p ∈ (create_skill_directory n out fs).2.dirs) := by
  simp only [create_skill_directory] at h
  have hc1 : ¬ (pathExists fs (out ++ [n]) = true) := by
    intro hc
    rw [if_pos hc] at h
    simp at h
  rw [if_neg hc1] at h
  have hc2 : ¬ ((!canMkdirParents fs (out ++ [n] ++ ["scripts"])) = true) := by
    intro hc
    rw [if_pos hc] at h
    simp at h
  rw [if_neg hc2] at h
  have hc3 : ¬ ((!canMkdirParents (doMkdirParents fs (out ++ [n] ++ ["scripts"]))
      (out ++ [n] ++ ["references"])) = true) := by
    intro hc
    rw [if_pos hc] at h
    simp at h
  rw [if_neg hc3] at h
  have hc4 : ¬ ((!canMkdirParents (doMkdirParents (doMkdirParents fs
      (out ++ [n] ++ ["scripts"])) (out ++ [n] ++ ["references"]))
      (out ++ [n] ++ ["assets"])) = true) := by
    intro hc
    rw [if_pos hc] at h
    simp at h
  rw [if_neg hc4] at h
  have hc5 : ¬ ((!canWriteText (doMkdirParents (doMkdirParents (doMkdirParents fs
      (out ++ [n] ++ ["scripts"])) (out ++ [n] ++ ["references"]))
      (out ++ [n] ++ ["assets"])) (out ++ [n] ++ ["SKILL.md"])) = true) := by
    intro hc
    rw [if_pos hc] at h
    simp at h
  rw [if_neg hc5] at h
  have hc6 : ¬ ((!canWriteText (doWriteText (doMkdirParents (doMkdirParents
      (doMkdirParents fs (out ++ [n] ++ ["scripts"])) (out ++ [n] ++ ["references"]))
      (out ++ [n] ++ ["assets"])) (out ++ [n] ++ ["SKILL.md"]) (skillMdContent n))
      (out ++ [n] ++ ["scripts", "example.py"])) = true) := by
    intro hc
    rw [if_pos hc] at h
    simp at h
  rw [if_neg hc6] at h
  have hc7 : ¬ ((!canWriteText (doWriteText (doWriteText (doMkdirParents
      (doMkdirParents (doMkdirParents fs (out ++ [n] ++ ["scripts"]))
      (out ++ [n] ++ ["references"])) (out ++ [n] ++ ["assets"]))
      (out ++ [n] ++ ["SKILL.md"]) (skillMdContent n))
      (out ++ [n] ++ ["scripts", "example.py"]) (exampleScriptContent n))
      (out ++ [n] ++ ["references", "example.md"])) = true) := by
    intro hc
    rw [if_pos hc] at h
    simp at h
  rw [if_neg hc7] at h
  have hc8 : ¬ ((!canTouch (doWriteText (doWriteText (doWriteText (doMkdirParents
      (doMkdirParents (doMkdirParents fs (out ++ [n] ++ ["scripts"]))
      (out ++ [n] ++ ["references"])) (out ++ [n] ++ ["assets"]))
      (out ++ [n] ++ ["SKILL.md"]) (skillMdContent n))
      (out ++ [n] ++ ["scripts", "example.py"]) (exampleScriptContent n))
      (out ++ [n] ++ ["references", "example.md"]) (exampleReferenceContent n))
      (out ++ [n] ++ ["assets", ".gitkeep"])) = true) := by
    intro hc
    rw [if_pos hc] at h
    simp at h
  have heq2 : (create_skill_directory n out fs).2 =
      doTouch (doWriteText (doWriteText (doWriteText (doMkdirParents
        (doMkdirParents (doMkdirParents fs (out ++ [n] ++ ["scripts"]))
        (out ++ [n] ++ ["references"])) (out ++ [n] ++ ["assets"]))
        (out ++ [n] ++ ["SKILL.md"]) (skillMdContent n))
        (out ++ [n] ++ ["scripts", "example.py"]) (exampleScriptContent n))
        (out ++ [n] ++ ["references", "example.md"]) (exampleReferenceContent n))
        (out ++ [n] ++ ["assets", ".gitkeep"]) := by
    simp only [create_skill_directory]
    rw [if_neg hc1, if_neg hc2, if_neg hc3, if_neg hc4, if_neg hc5, if_neg hc6,
      if_neg hc7, if_neg hc8]
  rw [heq2]
  refine ⟨?_, ?_, ?_⟩
  · intro p hp
    have hq1 : ¬ p = out ++ [n] ++ ["SKILL.md"] := fun hh => hp (by
      rw [hh]; exact List.prefix_append _ _)
    have hq2 : ¬ p = out ++ [n] ++ ["scripts", "example.py"] := fun hh => hp (by
      rw [hh]; exact List.prefix_append _ _)
    have hq3 : ¬ p = out ++ [n] ++ ["references", "example.md"] := fun hh => hp (by
      rw [hh]; exact List.prefix_append _ _)
    have hq4 : ¬ p = out ++ [n] ++ ["assets", ".gitkeep"] := fun hh => hp (by
      rw [hh]; exact List.prefix_append _ _)
    rw [lookupFile_doTouch_ne _ _ _ hq4, lookupFile_doWriteText_ne _ _ _ _ hq3,
      lookupFile_doWriteText_ne _ _ _ _ hq2, lookupFile_doWriteText_ne _ _ _ _ hq1,
      lookupFile_doMkdirParents, lookupFile_doMkdirParents, lookupFile_doMkdirParents]
  · intro p hp
    rw [doTouch_dirs, doWriteText_dirs, doWriteText_dirs, doWriteText_dirs] at hp
    rcases mem_dirs_mkdir3_elim hp with hm | hm | hm | hm
    · exact Or.inl hm
    · rcases List.prefix_concat_iff.mp hm with hm | hm
      · exact Or.inr (Or.inr (by rw [hm]; exact List.prefix_append _ _))
      · exact Or.inr (Or.inl hm)
    · rcases List.prefix_concat_iff.mp hm with hm | hm
      · exact Or.inr (Or.inr (by rw [hm]; exact List.prefix_append _ _))
      · exact Or.inr (Or.inl hm)
    · rcases List.prefix_concat_iff.mp hm with hm | hm
      · exact Or.inr (Or.inr (by rw [hm]; exact List.prefix_append _ _))
      · exact Or.inr (Or.inl hm)
  · intro p hp
    rw [doTouch_dirs, doWriteText_dirs, doWriteText_dirs, doWriteText_dirs]
    exact dirs_subset_doMkdirParents _ _ (dirs_subset_doMkdirParents _ _
      (dirs_subset_doMkdirParents _ _ hp))

/-- Witness for C9's amended frame property: a successful scaffold of
`demo` under output path `o` on an empty filesystem. -/
theorem C9_witness :
    (create_skill_directory "demo" ["o"] (FS.mk [] [])).1 = 0 ∧
    ((∀ p : FsPath, ¬ (["o"] ++ ["demo"]) <+: p →
      lookupFile (create_skill_directory "demo" ["o"] (FS.mk [] [])).2 p =
        lookupFile (FS.mk [] []) p) ∧
    (∀ p : FsPath, p ∈ (create_skill_directory "demo" ["o"] (FS.mk [] [])).2.dirs →
      p ∈ (FS.mk [] []).dirs ∨ p <+: (["o"] ++ ["demo"]) ∨ (["o"] ++ ["demo"]) <+: p) ∧
    (∀ p : FsPath, p ∈ (FS.mk [] []).dirs →
      p ∈ (create_skill_directory "demo" ["o"] (FS.mk [] [])).2.dirs)) :=
  ⟨by decide, C9_scaffold_frame "demo" ["o"] (FS.mk [] []) (by decide)⟩

/-! ## Claim C10 -/

/-- The files a run created strictly below `sd`, as (relative path,
content) pairs, in filesystem order. -/
def createdFilesRel (fs fsf : FS) (sd : FsPath) : List (FsPath × String) :=
  fsf.files.filterMap (fun e =>
    if sd.isPrefixOf e.1 && !(pathExists fs e.1) then
      some (e.1.drop sd.length, e.2) else none)

/-- The directories a run created at or below `sd`, as relative paths. -/
def createdDirsRel (fs fsf : FS) (sd : FsPath) : List FsPath :=
  fsf.dirs.filterMap (fun p =>
    if sd.isPrefixOf p && !(pathExists fs p) then some (p.drop sd.length) else none)

theorem filterMap_cons_some {α β : Type} (f : α → Option β) (a : α) (l : List α)
    {b : β} (h : f a = some b) : (a :: l).filterMap f = b :: l.filterMap f := by
  simp [List.filterMap_cons, h]

theorem filterMap_cons_none {α β : Type} (f : α → Option β) (a : α) (l : List α)
    (h : f a = none) : (a :: l).filterMap f = l.filterMap f := by
  simp [List.filterMap_cons, h]

/-- The relative file tree created by a successful scaffold is a function
of the skill name alone. -/
theorem createdFilesRel_canonical (n : String) (out : FsPath) (fs : FS)
    (hwf : wfFS fs = true) (hne : pathExists fs (out ++ [n]) = false)
    (hanc : ∀ q, q <+: out → lookupFile fs q = none) :
    createdFilesRel fs (create_skill_directory n out fs).2 (out ++ [n]) =
      [(["SKILL.md"], skillMdContent n),
       (["scripts", "example.py"], exampleScriptContent n),
       (["references", "example.md"], exampleReferenceContent n),
       (["assets", ".gitkeep"], "")] := by
  rw [create_skill_directory_canonical n out fs hwf hne hanc]
  unfold createdFilesRel
  show (fs.files ++ scaffoldFiles n (out ++ [n])).filterMap _ = _
  rw [List.filterMap_append]
  have hold : fs.files.filterMap (fun e =>
      if (out ++ [n]).isPrefixOf e.1 && !(pathExists fs e.1) then
        some (e.1.drop (out ++ [n]).length, e.2) else none) = [] := by
    rw [List.filterMap_eq_nil_iff]
    intro e he
    rw [if_neg (by simp [pathExists_of_mem_files he])]
  rw [hold]
  have hsd0 : out ++ [n] ≠ [] := by simp
  have hNE : ∀ q : FsPath, out ++ [n] <+: q → q ≠ out ++ [n] → pathExists fs q = false :=
    fun q hq hqne => not_exists_strict_under hwf hsd0 hne hq hqne
  have hx : ∀ (t : FsPath), t ≠ [] → pathExists fs ((out ++ [n]) ++ t) = false :=
    fun t ht => hNE _ (List.prefix_append _ _) (by simp [ht])
  have hb : ∀ (t : FsPath), (out ++ [n]).isPrefixOf ((out ++ [n]) ++ t) = true :=
    fun t => List.isPrefixOf_iff_prefix.mpr (List.prefix_append _ _)
  simp only [scaffoldFiles, List.filterMap_cons, List.filterMap_nil,
    hb ["SKILL.md"], hb ["scripts", "example.py"], hb ["references", "example.md"],
    hb ["assets", ".gitkeep"],
    hx ["SKILL.md"] (by simp), hx ["scripts", "example.py"] (by simp),
    hx ["references", "example.md"] (by simp), hx ["assets", ".gitkeep"] (by simp),
    Bool.not_false, Bool.and_self, eq_self_iff_true, if_true, List.drop_left,
    List.nil_append]

/-- The relative directory tree created by a successful scaffold is fixed. -/
theorem createdDirsRel_canonical (n : String) (out : FsPath) (fs : FS)
    (hwf : wfFS fs = true) (hne : pathExists fs (out ++ [n]) = false)
    (hanc : ∀ q, q <+: out → lookupFile fs q = none) :
    createdDirsRel fs (create_skill_directory n out fs).2 (out ++ [n]) =
      [[], ["scripts"], ["references"], ["assets"]] := by
  rw [create_skill_directory_canonical n out fs hwf hne hanc]
  unfold createdDirsRel
  show (fs.dirs ++ newAncestorDirs fs out ++
    [out ++ [n], out ++ [n, "scripts"], out ++ [n, "references"],
     out ++ [n, "assets"]]).filterMap _ = _
  rw [List.filterMap_append, List.filterMap_append]
  have hold : fs.dirs.filterMap (fun p =>
      if (out ++ [n]).isPrefixOf p && !(pathExists fs p) then
        some (p.drop (out ++ [n]).length) else none) = [] := by
    rw [List.filterMap_eq_nil_iff]
    intro p hp
    rw [if_neg (by simp [pathExists_of_mem_dirs hp])]
  have hancnil : (newAncestorDirs fs out).filterMap (fun p =>
      if (out ++ [n]).isPrefixOf p && !(pathExists fs p) then
        some (p.drop (out ++ [n]).length) else none) = [] := by
    rw [List.filterMap_eq_nil_iff]
    intro p hp
    unfold newAncestorDirs at hp
    have hppre : p <+: out := (List.mem_inits _ _).mp (List.mem_filter.mp hp).1
    have hnb : (out ++ [n]).isPrefixOf p = false := by
      cases hb : (out ++ [n]).isPrefixOf p
      · rfl
      · exfalso
        have hle := (List.isPrefixOf_iff_prefix.mp hb).length_le
        have hle2 := hppre.length_le
        simp at hle
        omega
    rw [if_neg (by simp [hnb])]
  rw [hold, hancnil]
  have hsd0 : out ++ [n] ≠ [] := by simp
  have hNE : ∀ q : FsPath, out ++ [n] <+: q → q ≠ out ++ [n] → pathExists fs q = false :=
    fun q hq hqne => not_exists_strict_under hwf hsd0 hne hq hqne
  have hx : ∀ (t : FsPath), t ≠ [] → pathExists fs ((out ++ [n]) ++ t) = false :=
    fun t ht => hNE _ (List.prefix_append _ _) (by simp [ht])
  have hb : ∀ (t : FsPath), (out ++ [n]).isPrefixOf ((out ++ [n]) ++ t) = true :=
    fun t => List.isPrefixOf_iff_prefix.mpr (List.prefix_append _ _)
  have hbsd : (out ++ [n]).isPrefixOf (out ++ [n]) = true :=
    List.isPrefixOf_iff_prefix.mpr List.prefix_rfl
  rw [show out ++ [n, "scripts"] = (out ++ [n]) ++ ["scripts"] by simp,
    show out ++ [n, "references"] = (out ++ [n]) ++ ["references"] by simp,
    show out ++ [n, "assets"] = (out ++ [n]) ++ ["assets"] by simp]
  simp only [List.filterMap_cons, List.filterMap_nil,
    hbsd, hne, hb ["scripts"], hb ["references"], hb ["assets"],
    hx ["scripts"] (by simp), hx ["references"] (by simp), hx ["assets"] (by simp),
    Bool.not_false, Bool.and_self, eq_self_iff_true, if_true, List.drop_left,
    List.drop_length, List.nil_append]

/-- C10: scaffolding is deterministic in the skill name: two successful
invocations with the same name, into fresh target locations on possibly
different filesystems, create file trees with identical relative paths and
byte-for-byte identical contents — no timestamps or randomness enter the
emitted files. -/
theorem C10_scaffold_deterministic (n : String) (out1 out2 : FsPath) (fs1 fs2 : FS)
    (hwf1 : wfFS fs1 = true) (hwf2 : wfFS fs2 = true)
    (hne1 : pathExists fs1 (out1 ++ [n]) = false)
    (hne2 : pathExists fs2 (out2 ++ [n]) = false)
    (hanc1 : ∀ q, q <+: out1 → lookupFile fs1 q = none)
    (hanc2 : ∀ q, q <+: out2 → lookupFile fs2 q = none) :
    (create_skill_directory n out1 fs1).1 = 0 ∧
    (create_skill_directory n out2 fs2).1 = 0 ∧
    createdFilesRel fs1 (create_skill_directory n out1 fs1).2 (out1 ++ [n]) =
      createdFilesRel fs2 (create_skill_directory n out2 fs2).2 (out2 ++ [n]) ∧
    createdDirsRel fs1 (create_skill_directory n out1 fs1).2 (out1 ++ [n]) =
      createdDirsRel fs2 (create_skill_directory n out2 fs2).2 (out2 ++ [n]) := by
  refine ⟨?_, ?_, ?_, ?_⟩
  · rw [create_skill_directory_canonical n out1 fs1 hwf1 hne1 hanc1]
  · rw [create_skill_directory_canonical n out2 fs2 hwf2 hne2 hanc2]
  · rw [createdFilesRel_canonical n out1 fs1 hwf1 hne1 hanc1,
      createdFilesRel_canonical n out2 fs2 hwf2 hne2 hanc2]
  · rw [createdDirsRel_canonical n out1 fs1 hwf1 hne1 hanc1,
      createdDirsRel_canonical n out2 fs2 hwf2 hne2 hanc2]

/-- Witness for C10: scaffolding `demo` into an empty filesystem under
`a`, and into a filesystem already containing the directory `b` under `b`,
creates identical relative trees. -/
theorem C10_witness :
    wfFS (FS.mk [["b"]] []) = true ∧
    ((create_skill_directory "demo" ["a"] (FS.mk [] [])).1 = 0 ∧
     (create_skill_directory "demo" ["b"] (FS.mk [["b"]] [])).1 = 0 ∧
     createdFilesRel (FS.mk [] [])
        (create_skill_directory "demo" ["a"] (FS.mk [] [])).2 (["a"] ++ ["demo"]) =
       createdFilesRel (FS.mk [["b"]] [])
        (create_skill_directory "demo" ["b"] (FS.mk [["b"]] [])).2 (["b"] ++ ["demo"]) ∧
     createdDirsRel (FS.mk [] [])
        (create_skill_directory "demo" ["a"] (FS.mk [] [])).2 (["a"] ++ ["demo"]) =
       createdDirsRel (FS.mk [["b"]] [])
        (create_skill_directory "demo" ["b"] (FS.mk [["b"]] [])).2 (["b"] ++ ["demo"])) :=
  ⟨by decide, C10_scaffold_deterministic "demo" ["a"] ["b"] (FS.mk [] [])
    (FS.mk [["b"]] []) (by decide) (by decide) (by decide) (by decide)
    (fun q _ => rfl) (fun q _ => rfl)⟩

/-! ## Archive packager

Modelled from the spec: the packager's source is not part of the
repository snapshot; the definitions follow §4.2 of the specification. -/

/-- The archive filename extension (spec §6). -/
def ARCHIVE_EXTENSION : String := ".skill"

/-- Modelled from the spec: the skill directory as read from disk — its
name is the final path segment, the manifest is the `SKILL.md` file inside
it, and the top-level files are the files directly contained in it. -/
def readSkillDir (fs : FS) (p : FsPath) : SkillDir :=
  { name := p.getLastD "",
    manifest := lookupFile fs (p ++ ["SKILL.md"]),
    topLevelFiles := fs.files.filterMap (fun e =>
      if e.1.dropLast = p then some (e.1.getLastD "") else none) }

/-- Modelled from the spec: a deterministic serialization of the subtree
rooted at the parent of the skill directory, containing only the
`skillName` subtree, so extraction reproduces a top-level folder named
after the skill.  Byte-level compression is abstracted. -/
def serializeSkillTree (fs : FS) (p : FsPath) : String :=
  String.intercalate "\x00" (fs.files.filterMap (fun e =>
    if p.isPrefixOf e.1 then
      some (String.intercalate "/" (p.getLastD "" :: e.1.drop p.length) ++
        "\x01" ++ e.2)
    else none))

/-- Modelled from the spec, §4.2: `package(skillDirectory, outputDirectory)`.
Validation runs first; on any violation the operation fails with a
non-zero exit before any filesystem mutation.  On success the output
directory is ensured, the archive is built under a temporary name and
atomically renamed to `<outputDirectory>/<skillName>.skill`; the net
filesystem effect is that single file (overwriting an existing one). -/
def package (fs : FS) (skillPath : FsPath) (outDir : FsPath) : Nat × FS :=
  let d := readSkillDir fs skillPath
  if (validate d).isValid = false then (1, fs)
  else
    let fs1 := if pathExists fs outDir then fs else doMkdirParents fs outDir
    let name := skillPath.getLastD ""
    let archive := serializeSkillTree fs skillPath
    (0, doWriteText fs1 (outDir ++ [name ++ ARCHIVE_EXTENSION]) archive)

/-! ## Claim C8 -/

/-- C8: packaging a skill directory that fails validation exits non-zero
and leaves the filesystem completely unchanged — no file appears in the
output directory, and a pre-existing file at the target archive path is
byte-for-byte untouched. -/
theorem C8_invalid_package_no_artifact (fs : FS) (skillPath outDir : FsPath)
    (h : (validate (readSkillDir fs skillPath)).isValid = false) :
    (package fs skillPath outDir).1 ≠ 0 ∧
    (package fs skillPath outDir).2 = fs ∧
    lookupFile (package fs skillPath outDir).2
        (outDir ++ [skillPath.getLastD "" ++ ARCHIVE_EXTENSION]) =
      lookupFile fs (outDir ++ [skillPath.getLastD "" ++ ARCHIVE_EXTENSION]) := by
  have hp : package fs skillPath outDir = (1, fs) := by
    simp only [package]
    rw [if_pos h]
  rw [hp]
  exact ⟨by simp, rfl, rfl⟩

/-- Witness for C8: a skill directory with no manifest file fails
validation; packaging it changes nothing. -/
theorem C8_witness :
    (validate (readSkillDir (FS.mk [["skill"]] []) ["skill"])).isValid = false ∧
    ((package (FS.mk [["skill"]] []) ["skill"] ["dist"]).1 ≠ 0 ∧
     (package (FS.mk [["skill"]] []) ["skill"] ["dist"]).2 = FS.mk [["skill"]] [] ∧
     lookupFile (package (FS.mk [["skill"]] []) ["skill"] ["dist"]).2
         (["dist"] ++ [(["skill"] : FsPath).getLastD "" ++ ARCHIVE_EXTENSION]) =
       lookupFile (FS.mk [["skill"]] [])
         (["dist"] ++ [(["skill"] : FsPath).getLastD "" ++ ARCHIVE_EXTENSION])) :=
  ⟨by decide, C8_invalid_package_no_artifact (FS.mk [["skill"]] []) ["skill"] ["dist"]
    (by decide)⟩
